import Mathlib

/-!
Verification of the schema-to-type generation engine of
directus-extension-models (src/index.ts).

The TypeScript source is shallowly embedded: each source function becomes a
Lean definition of the same name; JavaScript exceptions become `Except String`,
`null`/`undefined` become `Option`, JS object maps iterated with
`Object.values` become lists, and the external metadata-query collaborator
(`fieldsService.readByQuery`) is passed in as a function argument.
-/

set_option maxRecDepth 8000

namespace DirectusModels

/-- The single-quote character, used by the enumerated-choice literal types. -/
def sq : String := String.singleton (Char.ofNat 39)

/-- JS `value.split(("_"))` at the character level: splitting on the
underscore, keeping empty segments (so a leading, trailing or doubled
underscore produces an empty segment, and the empty string gives one empty
segment). -/
def splitUnderscore : List Char → List (List Char)
  | [] => [[]]
  | ch :: rest =>
    let r := splitUnderscore rest
    if ch = '_' then [] :: r
    else
      match r with
      | [] => [[ch]]
      | g :: gs => (ch :: g) :: gs

/-- JS `array.join(sep)`. -/
def joinSep (sep : String) : List String → String
  | [] => ""
  | [x] => x
  | x :: rest => x ++ sep ++ joinSep sep rest

/-- Concatenation of a list of strings (JS `array.join((""))`). -/
def concatAll : List String → String
  | [] => ""
  | s :: rest => s ++ concatAll rest

/-- One field of a collection (`FieldOverview`). `fieldAlias` mirrors the
source's `field.alias` flag tested in `generateModel` (renamed because
`alias` is a Lean keyword); `note`/`dbType` are nullable. -/
structure FieldOverview where
  field : String
  type : String
  nullable : Bool
  note : Option String
  dbType : Option String
  fieldAlias : Bool
deriving DecidableEq

/-- One entity (`CollectionsOverview` entry): its raw name and its fields in
`Object.values` iteration order. -/
structure Collection where
  collection : String
  fields : List FieldOverview
deriving DecidableEq

/-- Relation metadata: the one/many side bookkeeping (all nullable in the
Directus schema types). -/
structure RelationMeta where
  one_collection : Option String
  one_field : Option String
  many_collection : Option String
deriving DecidableEq

/-- Physical relation schema: the optional foreign-key column name. -/
structure RelationSchema where
  foreign_key_column : Option String
deriving DecidableEq

/-- One relation record of the schema snapshot. -/
structure Relation where
  collection : String
  field : String
  related_collection : Option String
  meta : Option RelationMeta
  schema : Option RelationSchema
deriving DecidableEq

/-- The full schema snapshot: collections (in iteration order) and the flat
relation list. -/
structure SchemaOverview where
  collections : List Collection
  relations : List Relation
deriving DecidableEq

/-- `options.choices` entry of a `directus_fields` row. -/
structure Choice where
  value : String
deriving DecidableEq

/-- `options` of a `directus_fields` row. -/
structure FieldOptions where
  choices : Option (List Choice)
deriving DecidableEq

/-- A `directus_fields` row, as far as `generateModel` reads it. -/
structure FieldItem where
  options : Option FieldOptions
deriving DecidableEq

/-- The external metadata-query collaborator: the result list of
`fieldsService.readByQuery` filtered on (collection, field) with limit 1. -/
def MetaQuery : Type := String → String → List FieldItem

/-- JS truthiness of an optional string (`null`, `undefined` and `""` are
falsy). -/
def truthyStr : Option String → Bool
  | none => false
  | some s => !(s == "")

/-- One segment of `upperCamelCase`: `part[0].toUpperCase() +
part.substring(1).toLowerCase()`. On an empty segment `part[0]` is
`undefined`, so `.toUpperCase()` raises a TypeError. -/
def camelPart (p : String) : Except String String :=
  match p.data with
  | [] => Except.error "TypeError: part[0] is undefined"
  | ch :: rest => Except.ok (String.mk (ch.toUpper :: rest.map Char.toLower))

/-- The `.map(...)` over the segments, propagating the TypeError. -/
def camelParts : List String → Except String (List String)
  | [] => Except.ok []
  | p :: rest => do
    let c ← camelPart p
    let cs ← camelParts rest
    pure (c :: cs)

/-- `upperCamelCase`: split on underscores, capitalise each segment, join. -/
def upperCamelCase (value : String) : Except String String :=
  (camelParts ((splitUnderscore value.data).map String.mk)).map concatAll

/-- Modelled from the spec: the `pluralize.singular` step is a third-party
dependency whose source is not part of this repository. Per the spec it
strips typical plural suffixes (keeping a double-s ending intact), and the
spec documents the resulting naive behaviour on irregulars such as news to
New. -/
def singular (s : String) : String :=
  match s.data.reverse with
  | [] => s
  | c :: rest =>
    if c = 's' then
      if rest.head? = some 's' then s
      else String.mk rest.reverse
    else s

/-- `className`: singularise the collection name, then PascalCase it. -/
def className (c : Collection) : Except String String :=
  upperCamelCase (singular c.collection)

/-- `className(schema.collections[name])` for a nullable name: a missing key
or a null name gives `undefined` and `className(undefined)` raises. -/
def classNameOf? (s : SchemaOverview) (name? : Option String) : Except String String :=
  match name? with
  | none => Except.error "TypeError: collection name is null"
  | some n =>
    match s.collections.find? (fun c => c.collection == n) with
    | none => Except.error "TypeError: unknown collection"
    | some c => className c

/-- `fieldTypeToJsType`: the scalar type mapper; unsupported kinds throw. -/
def fieldTypeToJsType (f : FieldOverview) (_c : Collection) : Except String String :=
  if f.type == "boolean" then Except.ok "boolean"
  else if ["integer", "float", "decimal", "bigInteger"].contains f.type then Except.ok "number"
  else if ["dateTime", "date", "time", "timestamp"].contains f.type then Except.ok "string"
  else if ["text", "string", "uuid", "hash"].contains f.type then Except.ok "string"
  else if f.type == "json" then Except.ok "any"
  else if f.type == "csv" then Except.ok "string[]"
  else Except.error "Unknown type"

/-- The foreign-key column of a relation via the optional chain
`relation?.schema?.foreign_key_column`. -/
def fkOf (r : Relation) : Option String :=
  r.schema.bind RelationSchema.foreign_key_column

/-- The import statement a cross-entity relation contributes (source line 42
and line 60; no trailing newline — `generateModel` appends it on render). -/
def importLine (n : String) : String :=
  "import \x7b " ++ n ++ " \x7d from \"./" ++ n ++ "\";"

/-- The `keyType` ternary of `fieldToRelationType`: with a truthy foreign-key
column, an indexed access on the related type; otherwise the field's own
scalar type. -/
def relationKeyType (f : FieldOverview) (c : Collection) (relation : Relation)
    (targetClassName : String) : Except String String :=
  match fkOf relation with
  | some fk =>
    if fk == "" then fieldTypeToJsType f c
    else pure (targetClassName ++ "[\"" ++ fk ++ "\"]")
  | none => fieldTypeToJsType f c

/-- `fieldToRelationType`: forward-relation resolution. `Except.ok none`
models the JS `null` return (not a relation); errors model thrown
TypeErrors and unsupported scalar types. -/
def fieldToRelationType (f : FieldOverview) (c : Collection) (s : SchemaOverview) :
    Except String (Option (List String)) :=
  match s.relations.find? (fun r => r.collection == c.collection && r.field == f.field) with
  | none => Except.ok none
  | some relation => do
    let targetClassName ← classNameOf? s relation.related_collection
    let keyType ← relationKeyType f c relation targetClassName
    let own ← className c
    if targetClassName = own then
      pure (some [targetClassName ++ " | " ++ keyType])
    else
      pure (some [targetClassName ++ " | " ++ keyType, importLine targetClassName])

/-- `aliasToType`: reverse/alias-relation resolution. Note that the source's
`find` predicate tests `r?.meta?.one_collection === collection.collection`
and the truthiness of `r?.meta?.one_field` only — the current field's name
is not compared against `one_field`. -/
def aliasToType (_f : FieldOverview) (c : Collection) (s : SchemaOverview) :
    Except String (Option (List String)) :=
  match s.relations.find? (fun r =>
      match r.meta with
      | some m => m.one_collection == some c.collection && truthyStr m.one_field
      | none => false) with
  | none => Except.ok none
  | some relation =>
    match relation.meta with
    | none => Except.error "TypeError: meta is null"
    | some m => do
      let targetClassName ← classNameOf? s m.many_collection
      let own ← className c
      if targetClassName = own then
        pure (some [targetClassName])
      else
        pure (some [targetClassName ++ "[]", importLine targetClassName])

/-- Escape embedded single quotes: `choice.value.replaceAll` with the
single-character quote pattern, at the character level. -/
def escapeChoice (v : String) : String :=
  String.mk (v.data.foldr
    (fun ch acc => if ch = Char.ofNat 39 then '\\' :: Char.ofNat 39 :: acc else ch :: acc) [])

/-- The literal union built from a non-empty choice list:
one single-quoted literal per entry, joined with a pipe. -/
def literalUnion (chs : List Choice) : String :=
  joinSep " | " (chs.map (fun ch => sq ++ escapeChoice ch.value ++ sq))

/-- `fieldItem?.options?.choices` optional chain. -/
def choicesOf (item? : Option FieldItem) : Option (List Choice) :=
  item?.bind FieldItem.options |>.bind FieldOptions.choices

/-- The enum-then-scalar tail of the per-field resolution in `generateModel`:
a non-empty configured choice list yields the literal union, otherwise the
scalar mapper decides (and may throw). -/
def enumOrScalar (f : FieldOverview) (c : Collection) (meta : MetaQuery) :
    Except String (String × List String) :=
  match choicesOf (meta c.collection f.field).head? with
  | some chs =>
    if chs = [] then (fieldTypeToJsType f c).map (fun t => (t, []))
    else Except.ok (literalUnion chs, [])
  | none => (fieldTypeToJsType f c).map (fun t => (t, []))

/-- The body of `generateModel`'s try block before the nullability step:
relation classification first (`aliasToType` for alias fields,
`fieldToRelationType` otherwise), then enum/scalar resolution. Returns the
resolved type (`relation[0]`) and the import lines (`relation.slice(1)`). -/
def resolveField (f : FieldOverview) (c : Collection) (s : SchemaOverview)
    (meta : MetaQuery) : Except String (String × List String) := do
  let rel? ← if f.fieldAlias then aliasToType f c s else fieldToRelationType f c s
  match rel? with
  | some l => pure (l.headD "undefined", l.drop 1)
  | none => enumOrScalar f c meta

/-- The diagnostic printed by the catch block: the message template (which
interpolates `collection.field`) plus the caught error. -/
structure Diag where
  msg : String
  err : String
deriving DecidableEq

/-- The catch block's message template. -/
def diagMsg (c : Collection) (f : FieldOverview) : String :=
  "\n== Missing Field ==\nFailed to get the type for " ++ c.collection ++ "." ++ f.field
    ++ ". Setting to \"never\".\nPlease report this error: "
    ++ "https://github.com/ChappIO/directus-extension-models/issues.\n\n\nStack Trace:"

/-- One iteration of `generateModel`'s field loop: resolution plus the
nullability widening inside the try block, with the catch block downgrading a
failed field to `never` (no widening, no imports) and recording the
diagnostic. -/
def processField (f : FieldOverview) (c : Collection) (s : SchemaOverview)
    (meta : MetaQuery) : String × List String × Option Diag :=
  match (resolveField f c s meta).map
      (fun r => (if f.nullable then r.1 ++ " | null" else r.1, r.2)) with
  | Except.ok (t, imps) => (t, imps, none)
  | Except.error e => ("never", [], some ⟨diagMsg c f, e⟩)

/-- `imports.includes` guarded push: dedup with first-seen order. -/
def addImport (imports : List String) (line : String) : List String :=
  if imports.contains line then imports else imports ++ [line]

/-- `field.note || (...)`: JS falsy fallback. -/
def noteOr (n : Option String) : String :=
  match n with
  | some s => if s = "" then "No description." else s
  | none => "No description."

/-- `field.dbType || (...)`: JS falsy fallback. -/
def dbTypeOr (n : Option String) : String :=
  match n with
  | some s => if s = "" then "no column" else s
  | none => "no column"

/-- The member text appended to `source` for one field: doc comment plus the
`name: type;` line. -/
def memberSource (f : FieldOverview) (t : String) : String :=
  "\n  \x2f**\n   * " ++ noteOr f.note ++ "\n   *\n   * Type in directus: " ++ f.type
    ++ "\n   * Type in database: " ++ dbTypeOr f.dbType ++ "\n   *\x2f\n   "
    ++ f.field ++ ": " ++ t ++ ";\n"

/-- The mutable loop state of `generateModel`: the growing `source` string,
the `imports` list and the diagnostics printed so far. -/
structure GenAcc where
  body : String
  imports : List String
  diags : List Diag
deriving DecidableEq

/-- `generateModel`'s field loop. -/
def modelFields (c : Collection) (s : SchemaOverview) (meta : MetaQuery) :
    List FieldOverview → GenAcc → GenAcc
  | [], acc => acc
  | f :: rest, acc =>
    modelFields c s meta rest
      ⟨acc.body ++ memberSource f (processField f c s meta).1,
       ((processField f c s meta).2.1).foldl addImport acc.imports,
       acc.diags ++ ((processField f c s meta).2.2).toList⟩

/-- `generateModel`: header (the `className` call here is outside the
per-field try/catch), field loop, closing brace, then the import block —
note the source's `if (imports)` is always true for an array, so the blank
line is appended unconditionally. Returns the generated source and the
diagnostics. -/
def generateModel (c : Collection) (s : SchemaOverview) (meta : MetaQuery) :
    Except String (String × List Diag) := do
  let cls ← className c
  let acc := modelFields c s meta c.fields
    ⟨"export interface " ++ cls ++ " \x7b\n", [], []⟩
  let importsSource := concatAll (acc.imports.map (fun l => l ++ "\n")) ++ "\n"
  pure (importsSource ++ acc.body ++ "\x7d\n", acc.diags)

/-- One import line of the index unit (source line 187, trailing newline
included there). -/
def indexImportsLoop : List Collection → String → Except String String
  | [], acc => Except.ok acc
  | c :: rest, acc => do
    let n ← className c
    indexImportsLoop rest (acc ++ importLine n ++ "\n")

/-- The member line of the index unit for one collection. -/
def memberLine (coll n : String) : String :=
  "  " ++ coll ++ ": " ++ n ++ ";\n"

/-- The aggregate-declaration loop of `generateIndex`. -/
def indexMembersLoop : List Collection → String → Except String String
  | [], acc => Except.ok acc
  | c :: rest, acc => do
    let n ← className c
    indexMembersLoop rest (acc ++ memberLine c.collection n)

/-- `generateIndex`: import lines for every collection, then the aggregate
`Collections` interface mapping raw names to class names. -/
def generateIndex (collections : List Collection) : Except String String := do
  let s1 ← indexImportsLoop collections ""
  let s2 ← indexMembersLoop collections (s1 ++ "\nexport interface Collections \x7b\n")
  pure (s2 ++ "\x7d\n")

/-- Decidable equality for `Except`, so concrete runs of the generator can be
checked by `decide`. -/
instance {ε α : Type _} [DecidableEq ε] [DecidableEq α] : DecidableEq (Except ε α)
  | Except.ok a, Except.ok b =>
    match decEq a b with
    | isTrue h => isTrue (congrArg Except.ok h)
    | isFalse h => isFalse (fun he => h (Except.ok.inj he))
  | Except.ok _, Except.error _ => isFalse (fun he => Except.noConfusion he)
  | Except.error _, Except.ok _ => isFalse (fun he => Except.noConfusion he)
  | Except.error e1, Except.error e2 =>
    match decEq e1 e2 with
    | isTrue h => isTrue (congrArg Except.error h)
    | isFalse h => isFalse (fun he => h (Except.error.inj he))

/-- The snapshot action's per-collection loop: compute the output file name
(`className` again, outside any try/catch) and the model source. Any throw
escapes and aborts the run. -/
def snapshotFiles (s : SchemaOverview) (meta : MetaQuery) :
    List Collection → Except String (List (String × String))
  | [] => Except.ok []
  | c :: rest => do
    let n ← className c
    let m ← generateModel c s meta
    let others ← snapshotFiles s meta rest
    pure ((n ++ ".d.ts", m.1) :: others)

/-- The whole snapshot action: one file per collection plus the index. -/
def snapshotRun (s : SchemaOverview) (meta : MetaQuery) :
    Except String (List (String × String)) := do
  let files ← snapshotFiles s meta s.collections
  let idx ← generateIndex s.collections
  pure (files ++ [("index.d.ts", idx)])

/-! Concrete example data used to exercise the generator. -/

/-- The always-empty metadata collaborator. -/
def noMeta : MetaQuery := fun _ _ => []

/-- An alias field `reviews` on `books`. -/
def revField : FieldOverview := ⟨"reviews", "alias", false, none, none, true⟩

/-- The `books` collection with the single alias field. -/
def booksCol : Collection := ⟨"books", [revField]⟩

/-- The `chapters` collection. -/
def chaptersCol : Collection := ⟨"chapters", []⟩

/-- A one-to-many relation whose one side is `books.chapters` — the alias
field of that relation is `chapters`, not `reviews`. -/
def chaptersRel : Relation :=
  ⟨"chapters", "book", some "books", some ⟨some "books", some "chapters", some "chapters"⟩, none⟩

/-- The schema holding `books`, `chapters` and the one relation. -/
def booksSchema : SchemaOverview := ⟨[booksCol, chaptersCol], [chaptersRel]⟩

/-- An alias field `children` on `nodes`. -/
def childField : FieldOverview := ⟨"children", "alias", false, none, none, true⟩

/-- The self-referencing `nodes` collection. -/
def nodesCol : Collection := ⟨"nodes", [childField]⟩

/-- A self-referencing one-to-many relation `nodes.children` / `nodes`. -/
def nodesRel : Relation :=
  ⟨"nodes", "parent", some "nodes", some ⟨some "nodes", some "children", some "nodes"⟩, none⟩

/-- The schema holding `nodes` and its self-relation. -/
def nodesSchema : SchemaOverview := ⟨[nodesCol], [nodesRel]⟩

/-- A nullable field of the unsupported `geometry` type. -/
def geoField : FieldOverview := ⟨"geo", "geometry", true, none, none, false⟩

/-- A plain integer foreign-key field `author` on `posts`. -/
def authField : FieldOverview := ⟨"author", "integer", false, none, none, false⟩

/-- The `posts` collection. -/
def postsCol : Collection := ⟨"posts", [authField]⟩

/-- The `users` collection. -/
def usersCol : Collection := ⟨"users", []⟩

/-- A forward relation `posts.author -> users` with a physical fk column. -/
def authRel : Relation := ⟨"posts", "author", some "users", none, some ⟨some "id"⟩⟩

/-- A forward relation `posts.author -> users` without a fk column. -/
def authRelNoFk : Relation := ⟨"posts", "author", some "users", none, none⟩

/-- Schema with the fk-carrying forward relation. -/
def postsSchema : SchemaOverview := ⟨[postsCol, usersCol], [authRel]⟩

/-- Schema with the fk-less forward relation. -/
def postsSchemaNoFk : SchemaOverview := ⟨[postsCol, usersCol], [authRelNoFk]⟩

/-- A self-referencing foreign-key field `parent` on `items`. -/
def parentField : FieldOverview := ⟨"parent", "integer", false, none, none, false⟩

/-- The self-referencing `items` collection. -/
def itemsCol : Collection := ⟨"items", [parentField]⟩

/-- The forward self-relation `items.parent -> items`. -/
def itemsRel : Relation := ⟨"items", "parent", some "items", none, some ⟨some "id"⟩⟩

/-- Schema with the forward self-relation. -/
def itemsSchema : SchemaOverview := ⟨[itemsCol], [itemsRel]⟩

/-- A nullable text field `bio`. -/
def bioField : FieldOverview := ⟨"bio", "text", true, none, none, false⟩

/-- A plain string field `status` (no relation attached to it). -/
def statusField : FieldOverview := ⟨"status", "string", false, none, none, false⟩

/-- Metadata collaborator returning a duplicated choice list. -/
def dupMeta : MetaQuery := fun _ _ => [⟨some ⟨some [⟨"a"⟩, ⟨"a"⟩]⟩⟩]

/-- Metadata collaborator returning two distinct choices, one with an
embedded quote. -/
def enumMeta : MetaQuery := fun _ _ => [⟨some ⟨some [⟨"a"⟩, ⟨"b" ++ sq ++ "c"⟩]⟩⟩]

/-- Metadata collaborator returning an empty choice list. -/
def emptyChoicesMeta : MetaQuery := fun _ _ => [⟨some ⟨some []⟩⟩]

/-- A documented string field `title`. -/
def titleField : FieldOverview := ⟨"title", "string", false, some "The title", some "varchar", false⟩

/-- An unsupported geometry field `shape`. -/
def shapeField : FieldOverview := ⟨"shape", "geometry", false, none, none, false⟩

/-- A plain integer field `count`. -/
def countField : FieldOverview := ⟨"count", "integer", false, none, none, false⟩

/-- A collection mixing supported fields around an unsupported one. -/
def assetsCol : Collection := ⟨"assets", [titleField, shapeField, countField]⟩

/-- Schema holding only `assets`, with no relations. -/
def assetsSchema : SchemaOverview := ⟨[assetsCol], []⟩

/-- A collection whose name starts with an underscore: its first
underscore-separated segment is empty. -/
def badCol : Collection := ⟨"_foo", []⟩

/-- Schema holding the badly named collection. -/
def badSchema : SchemaOverview := ⟨[badCol], []⟩

/-! Reduction helpers for `Except`. -/

/-- `bind` on a success. -/
theorem okBind {ε α β : Type _} (a : α) (f : α → Except ε β) :
    (Except.ok a >>= f : Except ε β) = f a := rfl

/-- `bind` on a failure. -/
theorem errBind {ε α β : Type _} (e : ε) (f : α → Except ε β) :
    (Except.error e >>= f : Except ε β) = Except.error e := rfl

/-- `map` on a success. -/
theorem okMap {ε α β : Type _} (a : α) (g : α → β) :
    (Except.ok a : Except ε α).map g = Except.ok (g a) := rfl

/-- `map` on a failure. -/
theorem errMap {ε α β : Type _} (e : ε) (g : α → β) :
    (Except.error e : Except ε α).map g = Except.error e := rfl

/-- `pure` into `Except` is `Except.ok`. -/
theorem pureOk {ε α : Type _} (a : α) : (pure a : Except ε α) = Except.ok a := rfl

/-- `<$>` on a success. -/
theorem okFmap {ε α β : Type _} (a : α) (g : α → β) :
    (g <$> (Except.ok a : Except ε α)) = Except.ok (g a) := rfl

/-- `<$>` on a failure. -/
theorem errFmap {ε α β : Type _} (e : ε) (g : α → β) :
    (g <$> (Except.error e : Except ε α)) = Except.error e := rfl

/-- Claim C1: the spec says reverse-relation resolution selects a relation
only when both `meta.one_collection` matches the current entity and
`meta.one_field` matches the current field, and that an alias field whose
(entity, field) pair matches no relation is not classified as a reverse
relation. The code violates this: its `find` predicate never compares
`one_field` with the field's name, so the alias field `books.reviews` is
classified through the relation whose one side is `books.chapters`. -/
theorem alias_lookup_ignores_field_name :
    (∀ r ∈ booksSchema.relations,
      (r.meta.bind RelationMeta.one_field) ≠ some revField.field) ∧
    aliasToType revField booksCol booksSchema
      = Except.ok (some ["Chapter[]", importLine "Chapter"]) := by
  decide

/-- Claim C2: the spec says an alias field classified as a reverse relation
always gets the array type `Related[]`, a self-reference changing only
the import. The code violates this: for the self-referencing alias relation
on `nodes` it emits the bare identifier `Node`, not `Node[]`. -/
theorem self_alias_drops_array_suffix :
    aliasToType childField nodesCol nodesSchema = Except.ok (some ["Node"]) ∧
    ("Node" : String) ≠ "Node[]" := by
  decide

/-- Claim C9: the derived type identifier is a pure function of the
collection name alone, and on the spec's examples it maps articles to
Article, user_accounts to UserAccount and news to New (the singularization
step being modelled from the spec, as `pluralize` is an external
dependency). -/
theorem class_name_pure_and_examples :
    (∀ c1 c2 : Collection, c1.collection = c2.collection → className c1 = className c2) ∧
    className ⟨"articles", []⟩ = Except.ok "Article" ∧
    className ⟨"user_accounts", []⟩ = Except.ok "UserAccount" ∧
    className ⟨"news", []⟩ = Except.ok "New" := by
  refine ⟨fun c1 c2 h => ?_, by decide, by decide, by decide⟩
  simp only [className, h]

/-- Witness for C9 at concrete inputs: two `articles` collections differing
only in their fields derive the same identifier. -/
theorem class_name_pure_and_examples_witness :
    className ⟨"articles", []⟩
      = className ⟨"articles", [⟨"id", "integer", false, none, none, false⟩]⟩ ∧
    className ⟨"news", []⟩ = Except.ok "New" :=
  ⟨class_name_pure_and_examples.1 _ _ rfl, class_name_pure_and_examples.2.2.2⟩

/-- Claim C4: for a non-alias field matched by a forward relation, the
emitted type expression is `Related | Related["fk"]` when the relation
carries a physical foreign-key column, and `Related | scalar` (scalar from
the Scalar Type Mapper on the field's own type) when it carries none. -/
theorem forward_relation_type_shape
    (f : FieldOverview) (c : Collection) (s : SchemaOverview) (r : Relation) (T own : String)
    (hfind : s.relations.find? (fun q => q.collection == c.collection && q.field == f.field)
      = some r)
    (hT : classNameOf? s r.related_collection = Except.ok T)
    (hown : className c = Except.ok own) :
    (∀ fk, fkOf r = some fk → fk ≠ "" →
      ∃ rest, fieldToRelationType f c s
        = Except.ok (some ((T ++ " | " ++ (T ++ "[\"" ++ fk ++ "\"]")) :: rest))) ∧
    (∀ sc, fkOf r = none → fieldTypeToJsType f c = Except.ok sc →
      ∃ rest, fieldToRelationType f c s
        = Except.ok (some ((T ++ " | " ++ sc) :: rest))) := by
  constructor
  · intro fk hfk hne
    have hkt : relationKeyType f c r T = Except.ok (T ++ "[\"" ++ fk ++ "\"]") := by
      simp [relationKeyType, hfk, hne, pureOk]
    by_cases hto : T = own
    · subst hto
      exact ⟨[], by simp [fieldToRelationType, hfind, hT, hkt, hown, okBind, okFmap, pureOk]⟩
    · exact ⟨[importLine T],
        by simp [fieldToRelationType, hfind, hT, hkt, hown, okBind, okFmap, pureOk, hto]⟩
  · intro sc hfk hsc
    have hkt : relationKeyType f c r T = Except.ok sc := by
      simp [relationKeyType, hfk, hsc]
    by_cases hto : T = own
    · subst hto
      exact ⟨[], by simp [fieldToRelationType, hfind, hT, hkt, hown, okBind, okFmap, pureOk]⟩
    · exact ⟨[importLine T],
        by simp [fieldToRelationType, hfind, hT, hkt, hown, okBind, okFmap, pureOk, hto]⟩

/-- Witness for C4: the fk relation gives `User | User["id"]`, the fk-less
one gives `User | number`. -/
theorem forward_relation_type_shape_witness :
    (∃ rest, fieldToRelationType authField postsCol postsSchema
      = Except.ok (some (("User | User[\"id\"]") :: rest))) ∧
    (∃ rest, fieldToRelationType authField postsCol postsSchemaNoFk
      = Except.ok (some (("User | number") :: rest))) :=
  ⟨(forward_relation_type_shape authField postsCol postsSchema authRel "User" "Post"
      (by decide) (by decide) (by decide)).1 "id" (by decide) (by decide),
   (forward_relation_type_shape authField postsCol postsSchemaNoFk authRelNoFk "User" "Post"
      (by decide) (by decide) (by decide)).2 "number" (by decide) (by decide)⟩

/-- Claim C8: a self-referencing forward relation contributes no import
line, a cross-entity one contributes exactly one, and the entity-level
accumulator of imports is a dedup set with first-seen order: pushing a
present line is the identity, pushing a new one appends it at the end. -/
theorem import_dedup_and_self_reference
    (f : FieldOverview) (c : Collection) (s : SchemaOverview) (r : Relation)
    (T own kt : String) (imports : List String) (x : String)
    (hfind : s.relations.find? (fun q => q.collection == c.collection && q.field == f.field)
      = some r)
    (hT : classNameOf? s r.related_collection = Except.ok T)
    (hk : relationKeyType f c r T = Except.ok kt)
    (hown : className c = Except.ok own) :
    (T = own → fieldToRelationType f c s = Except.ok (some [T ++ " | " ++ kt])) ∧
    (T ≠ own → fieldToRelationType f c s
      = Except.ok (some [T ++ " | " ++ kt, importLine T])) ∧
    (x ∈ imports → addImport imports x = imports) ∧
    (x ∉ imports → addImport imports x = imports ++ [x]) := by
  refine ⟨fun hto => ?_, fun hto => ?_, fun hx => ?_, fun hx => ?_⟩
  · subst hto
    simp [fieldToRelationType, hfind, hT, hk, hown, okBind, okFmap, pureOk]
  · simp [fieldToRelationType, hfind, hT, hk, hown, okBind, okFmap, pureOk, hto]
  · simp [addImport, hx]
  · simp [addImport, hx]

/-- Witness for C8: the self-relation on `items` yields no import, the
cross-relation on `posts` yields exactly one, and the accumulator behaves as
a first-seen-order set on concrete lists. -/
theorem import_dedup_and_self_reference_witness :
    fieldToRelationType parentField itemsCol itemsSchema
      = Except.ok (some ["Item | Item[\"id\"]"]) ∧
    fieldToRelationType authField postsCol postsSchema
      = Except.ok (some ["User | User[\"id\"]", importLine "User"]) ∧
    addImport [importLine "User"] (importLine "User") = [importLine "User"] ∧
    addImport [] (importLine "User") = [] ++ [importLine "User"] :=
  ⟨(import_dedup_and_self_reference parentField itemsCol itemsSchema itemsRel
      "Item" "Item" ("Item" ++ "[\"" ++ "id" ++ "\"]") [] ""
      (by decide) (by decide) (by decide) (by decide)).1 rfl,
   (import_dedup_and_self_reference authField postsCol postsSchema authRel
      "User" "Post" ("User" ++ "[\"" ++ "id" ++ "\"]") [] ""
      (by decide) (by decide) (by decide) (by decide)).2.1 (by decide),
   (import_dedup_and_self_reference authField postsCol postsSchema authRel
      "User" "Post" ("User" ++ "[\"" ++ "id" ++ "\"]") [importLine "User"] (importLine "User")
      (by decide) (by decide) (by decide) (by decide)).2.2.1 (by decide),
   (import_dedup_and_self_reference authField postsCol postsSchema authRel
      "User" "Post" ("User" ++ "[\"" ++ "id" ++ "\"]") [] (importLine "User")
      (by decide) (by decide) (by decide) (by decide)).2.2.2 (by decide)⟩

/-- Counterexample to claim C5: the nullable `geometry` field's resolution
fails, and the emitted type is the bare `never` — not `never | null` — even
though `nullable = true`, because the widening sits inside the try block and
is skipped when the catch fires. -/
theorem nullable_failed_field_not_null_union :
    geoField.nullable = true ∧
    processField geoField booksCol booksSchema noMeta
      = ("never", [], some ⟨diagMsg booksCol geoField, "Unknown type"⟩) ∧
    ("never" : String) ≠ "never" ++ " | null" := by
  decide

/-- Claim C5 as amended: for a field with `nullable = true` whose resolution
succeeds, the emitted type is the resolved type followed by the null union,
applied after relation/enum/scalar resolution; a field whose resolution
fails is emitted as the bare `never` with a diagnostic, without the null
marker. -/
theorem nullable_widening_on_success
    (f : FieldOverview) (c : Collection) (s : SchemaOverview) (meta : MetaQuery)
    (t : String) (imps : List String) (e : String) :
    (f.nullable = true → resolveField f c s meta = Except.ok (t, imps) →
      processField f c s meta = (t ++ " | null", imps, none)) ∧
    (resolveField f c s meta = Except.error e →
      processField f c s meta = ("never", [], some ⟨diagMsg c f, e⟩)) := by
  constructor
  · intro hn hres
    simp [processField, hres, okMap, hn]
  · intro hres
    simp [processField, hres, errMap]

/-- Witness for C5 (amended): a nullable text field becomes
`string | null`, the failed geometry field becomes bare `never`. -/
theorem nullable_widening_on_success_witness :
    processField bioField booksCol booksSchema noMeta
      = ("string" ++ " | null", [], none) ∧
    processField geoField booksCol booksSchema noMeta
      = ("never", [], some ⟨diagMsg booksCol geoField, "Unknown type"⟩) :=
  ⟨(nullable_widening_on_success bioField booksCol booksSchema noMeta
      "string" [] "unused").1 (by decide) (by decide),
   (nullable_widening_on_success geoField booksCol booksSchema noMeta
      "unused" [] "Unknown type").2 (by decide)⟩

/-- Counterexample to claim C6: a duplicated choice list `[a, a]` has one
distinct value but the emitted union repeats the literal — the code maps
over choice entries without deduplication, so the union is not one literal
per distinct choice value. -/
theorem duplicate_choices_not_deduplicated :
    resolveField statusField postsCol postsSchema dupMeta
      = Except.ok (sq ++ "a" ++ sq ++ " | " ++ (sq ++ "a" ++ sq), []) ∧
    (sq ++ "a" ++ sq ++ " | " ++ (sq ++ "a" ++ sq)) ≠ sq ++ "a" ++ sq := by
  decide

/-- Claim C6 as amended: for a non-relation field, a non-empty choice list
yields the union of single-quoted literals, one per choice entry in order
(duplicate values are repeated, not deduplicated), with embedded quotes
escaped; an empty or absent choice list falls through to the scalar
mapper. -/
theorem choice_union_amended
    (f : FieldOverview) (c : Collection) (s : SchemaOverview) (meta : MetaQuery)
    (hal : f.fieldAlias = false)
    (hrel : s.relations.find? (fun q => q.collection == c.collection && q.field == f.field)
      = none) :
    (∀ chs, choicesOf (meta c.collection f.field).head? = some chs → chs ≠ [] →
      resolveField f c s meta = Except.ok (literalUnion chs, [])) ∧
    (∀ sc, fieldTypeToJsType f c = Except.ok sc →
      choicesOf (meta c.collection f.field).head? = some [] →
      resolveField f c s meta = Except.ok (sc, [])) ∧
    (∀ sc, fieldTypeToJsType f c = Except.ok sc →
      choicesOf (meta c.collection f.field).head? = none →
      resolveField f c s meta = Except.ok (sc, [])) ∧
    literalUnion [⟨"a"⟩, ⟨"b" ++ sq ++ "c"⟩]
      = sq ++ "a" ++ sq ++ " | " ++ (sq ++ "b" ++ ("\\" ++ sq) ++ "c" ++ sq) := by
  refine ⟨fun chs hch hne => ?_, fun sc hsc hch => ?_, fun sc hsc hch => ?_, by decide⟩
  · simp [resolveField, hal, fieldToRelationType, hrel, okBind, enumOrScalar, hch, hne]
  · simp [resolveField, hal, fieldToRelationType, hrel, okBind, enumOrScalar, hch, hsc, okMap]
  · simp [resolveField, hal, fieldToRelationType, hrel, okBind, enumOrScalar, hch, hsc, okMap]

/-- Witness for C6 (amended): the two-choice list with an embedded quote
yields the escaped literal union, and both the empty and the absent choice
list fall through to the scalar `string`. -/
theorem choice_union_amended_witness :
    resolveField statusField postsCol postsSchema enumMeta
      = Except.ok (literalUnion [⟨"a"⟩, ⟨"b" ++ sq ++ "c"⟩], []) ∧
    resolveField statusField postsCol postsSchema emptyChoicesMeta
      = Except.ok ("string", []) ∧
    resolveField statusField postsCol postsSchema noMeta
      = Except.ok ("string", []) :=
  ⟨(choice_union_amended statusField postsCol postsSchema enumMeta
      (by decide) (by decide)).1 [⟨"a"⟩, ⟨"b" ++ sq ++ "c"⟩] (by decide) (by decide),
   (choice_union_amended statusField postsCol postsSchema emptyChoicesMeta
      (by decide) (by decide)).2.1 "string" (by decide) (by decide),
   (choice_union_amended statusField postsCol postsSchema noMeta
      (by decide) (by decide)).2.2.1 "string" (by decide) (by decide)⟩

/-- The import loop of the index unit accumulates one import line per
collection, in order. -/
theorem indexImportsLoop_spec (cs : List Collection) (names : List String)
    (h : List.Forall₂ (fun c n => className c = Except.ok n) cs names) :
    ∀ acc, indexImportsLoop cs acc
      = Except.ok (acc ++ concatAll (names.map (fun n => importLine n ++ "\n"))) := by
  induction h with
  | nil =>
    intro acc
    simp [indexImportsLoop, concatAll]
  | cons hcn hrest ih =>
    intro acc
    simp [indexImportsLoop, hcn, okBind, concatAll, ih, String.append_assoc]

/-- The member loop of the index unit accumulates one member line per
collection, in order. -/
theorem indexMembersLoop_spec (cs : List Collection) (names : List String)
    (h : List.Forall₂ (fun c n => className c = Except.ok n) cs names) :
    ∀ acc, indexMembersLoop cs acc
      = Except.ok (acc
          ++ concatAll (List.zipWith (fun c n => memberLine c.collection n) cs names)) := by
  induction h with
  | nil =>
    intro acc
    simp [indexMembersLoop, concatAll]
  | cons hcn hrest ih =>
    intro acc
    simp [indexMembersLoop, hcn, okBind, concatAll, ih, String.append_assoc]

/-- Claim C7: the index unit is exactly one import line per entity followed
by the aggregate interface with one member per entity, both in catalog
order, keyed by the raw collection name and valued by the derived type
identifier. -/
theorem index_unit_shape (collections : List Collection) (names : List String)
    (h : List.Forall₂ (fun c n => className c = Except.ok n) collections names) :
    generateIndex collections = Except.ok
      (concatAll (names.map (fun n => importLine n ++ "\n"))
        ++ ("\nexport interface Collections \x7b\n"
          ++ (concatAll
                (List.zipWith (fun c n => memberLine c.collection n) collections names)
            ++ "\x7d\n"))) := by
  have h1 := indexImportsLoop_spec collections names h ""
  have h2 := indexMembersLoop_spec collections names h
    ("" ++ concatAll (names.map (fun n => importLine n ++ "\n"))
      ++ "\nexport interface Collections \x7b\n")
  simp only [generateIndex, h1, okBind, h2, pureOk]
  simp [String.append_assoc]

/-- Witness for C7 on the two-entity catalog `[books, chapters]`. -/
theorem index_unit_shape_witness :
    generateIndex [booksCol, chaptersCol] = Except.ok
      (concatAll ((["Book", "Chapter"]).map (fun n => importLine n ++ "\n"))
        ++ ("\nexport interface Collections \x7b\n"
          ++ (concatAll
                (List.zipWith (fun (c : Collection) n => memberLine c.collection n)
                  [booksCol, chaptersCol] ["Book", "Chapter"])
            ++ "\x7d\n"))) :=
  index_unit_shape [booksCol, chaptersCol] ["Book", "Chapter"]
    (List.Forall₂.cons (by decide) (List.Forall₂.cons (by decide) List.Forall₂.nil))

/-- Binding into `pure` is `map`. -/
theorem bindPureMap {ε α β : Type _} (x : Except ε α) (g : α → β) :
    (x >>= fun a => pure (g a)) = x.map g := by
  cases x <;> rfl

/-- The functorial `<$>` on `Except` is `Except.map`. -/
theorem fmapEqMap {ε α β : Type _} (g : α → β) (x : Except ε α) :
    (g <$> x) = x.map g := rfl

/-- The field loop of `generateModel` appends one member per field, each
computed from that field alone, and collects the per-field diagnostics in
order. -/
theorem modelFields_spec (c : Collection) (s : SchemaOverview) (meta : MetaQuery)
    (fs : List FieldOverview) :
    ∀ acc : GenAcc,
      (modelFields c s meta fs acc).body
        = acc.body ++ concatAll (fs.map (fun g => memberSource g (processField g c s meta).1))
      ∧ (modelFields c s meta fs acc).diags
        = acc.diags ++ (fs.map (fun g => ((processField g c s meta).2.2).toList)).flatten := by
  induction fs with
  | nil =>
    intro acc
    simp [modelFields, concatAll]
  | cons f rest ih =>
    intro acc
    constructor
    · rw [modelFields, (ih _).1]
      simp [concatAll, String.append_assoc]
    · rw [modelFields, (ih _).2]
      simp [concatAll, List.append_assoc]

/-- Claim C3: a field whose resolution fails is emitted with the `never`
type, the diagnostic names the entity and the field and carries the
underlying error, and the entity's unit is still produced with every other
field's member computed exactly as it would be on its own — so the rest of
the entity and the rest of the run proceed unchanged. -/
theorem field_failure_soft_recovery
    (s : SchemaOverview) (meta : MetaQuery) (c : Collection) (f : FieldOverview)
    (e : String) (cls : String)
    (hres : resolveField f c s meta = Except.error e)
    (_hmem : f ∈ c.fields)
    (hcls : className c = Except.ok cls) :
    processField f c s meta = ("never", [], some ⟨diagMsg c f, e⟩) ∧
    (∃ a b, diagMsg c f = a ++ (c.collection ++ "." ++ f.field) ++ b) ∧
    (∃ gsrc gdiags, generateModel c s meta = Except.ok (gsrc, gdiags) ∧
      (∃ imps : List String,
        gsrc = concatAll (imps.map (fun l => l ++ "\n")) ++ ("\n"
          ++ ("export interface " ++ (cls ++ (" \x7b\n"
            ++ (concatAll (c.fields.map (fun g => memberSource g (processField g c s meta).1))
              ++ "\x7d\n")))))) ∧
      gdiags = (c.fields.map (fun g => ((processField g c s meta).2.2).toList)).flatten ∧
      (∀ rest, snapshotFiles s meta (c :: rest)
        = (snapshotFiles s meta rest).map
            (fun others => (cls ++ ".d.ts", gsrc) :: others))) := by
  refine ⟨by simp [processField, hres, errMap], ?_, ?_⟩
  · exact ⟨"\n== Missing Field ==\nFailed to get the type for ",
      ". Setting to \"never\".\nPlease report this error: "
        ++ "https://github.com/ChappIO/directus-extension-models/issues.\n\n\nStack Trace:",
      by simp [diagMsg, String.append_assoc]⟩
  · have hspec := modelFields_spec c s meta c.fields
      ⟨"export interface " ++ cls ++ " \x7b\n", [], []⟩
    have hgen : generateModel c s meta = Except.ok
        (concatAll
            ((modelFields c s meta c.fields
              ⟨"export interface " ++ cls ++ " \x7b\n", [], []⟩).imports.map
                (fun l => l ++ "\n")) ++ ("\n"
          ++ ("export interface " ++ (cls ++ (" \x7b\n"
            ++ (concatAll (c.fields.map (fun g => memberSource g (processField g c s meta).1))
              ++ "\x7d\n"))))),
         (c.fields.map (fun g => ((processField g c s meta).2.2).toList)).flatten) := by
      simp only [generateModel, hcls, okBind, pureOk, hspec.1, hspec.2]
      simp [String.append_assoc]
    refine ⟨_, _, hgen, ⟨_, rfl⟩, rfl, fun rest => ?_⟩
    simp only [snapshotFiles, hcls, okBind, hgen]
    simp [bindPureMap, fmapEqMap]

/-- Witness for C3: in the `assets` entity the geometry field fails with
the unsupported-type error and is downgraded to `never`. -/
theorem field_failure_soft_recovery_witness :
    resolveField shapeField assetsCol assetsSchema noMeta = Except.error "Unknown type" ∧
    processField shapeField assetsCol assetsSchema noMeta
      = ("never", [], some ⟨diagMsg assetsCol shapeField, "Unknown type"⟩) :=
  ⟨by decide,
   (field_failure_soft_recovery assetsSchema noMeta assetsCol shapeField "Unknown type"
      "Asset" (by decide) (by decide) (by decide)).1⟩

/-- A segment list containing the empty segment makes the PascalCase loop
throw. -/
theorem camelParts_error_of_empty (qs : List String) (h : "" ∈ qs) :
    ∃ e, camelParts qs = Except.error e := by
  induction qs with
  | nil => cases h
  | cons q rest ih =>
    cases h with
    | head =>
      exact ⟨"TypeError: part[0] is undefined", by simp [camelParts, camelPart, errBind]⟩
    | tail _ hmem =>
      cases hq : camelPart q with
      | error e2 => exact ⟨e2, by simp [camelParts, hq, errBind]⟩
      | ok v =>
        obtain ⟨e2, he2⟩ := ih hmem
        exact ⟨e2, by simp [camelParts, hq, okBind, he2, errBind]⟩

/-- A collection whose singularised name has an empty underscore-separated
segment has no derivable identifier: `className` throws. -/
theorem className_error_of_empty_segment (c : Collection)
    (h : [] ∈ splitUnderscore (singular c.collection).data) :
    ∃ e, className c = Except.error e := by
  have hmem : "" ∈ (splitUnderscore (singular c.collection).data).map String.mk := by
    have := List.mem_map_of_mem String.mk h
    simpa using this
  obtain ⟨e, he⟩ := camelParts_error_of_empty _ hmem
  exact ⟨e, by simp [className, upperCamelCase, he, errMap]⟩

/-- If some collection of the catalog has no derivable identifier, the
per-collection file loop fails. -/
theorem snapshotFiles_error_of_mem (s : SchemaOverview) (meta : MetaQuery)
    (c : Collection) (he : ∃ e, className c = Except.error e) :
    ∀ cs : List Collection, c ∈ cs → ∃ e, snapshotFiles s meta cs = Except.error e := by
  intro cs
  induction cs with
  | nil => intro h; cases h
  | cons d rest ih =>
    intro hmem
    cases hd : className d with
    | error e2 => exact ⟨e2, by simp [snapshotFiles, hd, errBind]⟩
    | ok n =>
      cases hmem with
      | head =>
        obtain ⟨e2, he2⟩ := he
        simp [he2] at hd
      | tail _ hmem2 =>
        cases hg : generateModel d s meta with
        | error e2 => exact ⟨e2, by simp [snapshotFiles, hd, okBind, hg, errBind]⟩
        | ok m =>
          obtain ⟨e2, hrest⟩ := ih hmem2
          exact ⟨e2, by simp [snapshotFiles, hd, okBind, hg, hrest, errBind]⟩

/-- Claim C10: a collection name with an empty underscore-separated segment
(leading/trailing/doubled underscore, or a name that singularises to the
empty string) makes identifier derivation throw, and since the identifier is
computed outside the per-field recovery — for the declaration header and the
output file name — the entity is not soft-failed: its model generation and
the whole run abort. -/
theorem bad_segment_aborts_run
    (c : Collection) (s : SchemaOverview) (meta : MetaQuery)
    (hseg : [] ∈ splitUnderscore (singular c.collection).data)
    (hmem : c ∈ s.collections) :
    (∃ e, className c = Except.error e) ∧
    (∃ e, generateModel c s meta = Except.error e) ∧
    (∃ e, snapshotRun s meta = Except.error e) := by
  obtain ⟨e, he⟩ := className_error_of_empty_segment c hseg
  refine ⟨⟨e, he⟩, ⟨e, by simp [generateModel, he, errBind]⟩, ?_⟩
  obtain ⟨e2, hf⟩ := snapshotFiles_error_of_mem s meta c ⟨e, he⟩ s.collections hmem
  exact ⟨e2, by simp [snapshotRun, hf, errBind]⟩

/-- Witness for C10: the `_foo` collection aborts the whole snapshot run. -/
theorem bad_segment_aborts_run_witness :
    ∃ e, snapshotRun badSchema noMeta = Except.error e :=
  (bad_segment_aborts_run badCol badSchema noMeta (by decide) (by decide)).2.2

end DirectusModels
